import Mathlib

/-!
Verification development for fts_pdbsrc (a PDB source-embedding tool with a
resolution daemon). The Rust sources are shallowly embedded: pure logic is
translated to executable Lean functions; external facilities (the filesystem,
the AES-256-GCM primitive, the PDB container library, serde serialization,
TCP sockets) are passed in as explicit function parameters, exactly at the
call boundaries where the Rust code invokes them. A Rust `panic` (from
`unwrap`, `expect` or `assert_eq`) is modelled as a distinct `Outcome.panic`
value, kept apart from recoverable `anyhow::Error` returns (`Outcome.err`).
-/

/-- Result of running a fallible Rust code path: `ok` models a normal return,
`err` models an `anyhow::Error` propagated with the question-mark operator or
`bail`, and `panic` models a process-aborting panic (`unwrap` of `None`,
`expect`, a failed `assert_eq`). -/
inductive Outcome (α : Type) where
  | ok (val : α)
  | err (msg : String)
  | panic (msg : String)
deriving DecidableEq, Repr

/-- True exactly when the outcome is a recoverable `anyhow::Error` return. -/
def Outcome.isErr {α : Type} : Outcome α → Bool
  | .ok _ => false
  | .err _ => true
  | .panic _ => false

/-- True exactly when the outcome is a normal return. -/
def Outcome.isOk {α : Type} : Outcome α → Bool
  | .ok _ => true
  | .err _ => false
  | .panic _ => false

/-- Value of one hexadecimal digit, as accepted by `hex::decode`. -/
def hexVal (c : Char) : Option Nat :=
  if '0' ≤ c ∧ c ≤ '9' then some (c.toNat - '0'.toNat)
  else if 'a' ≤ c ∧ c ≤ 'f' then some (c.toNat - 'a'.toNat + 10)
  else if 'A' ≤ c ∧ c ≤ 'F' then some (c.toNat - 'A'.toNat + 10)
  else none

/-- `hex::decode` on a character list: consumes two hex digits per output
byte, failing on an odd-length input or a non-hex character. -/
def hexDecodeList : List Char → Option (List Nat)
  | [] => some []
  | [_] => none
  | a :: b :: rest => do
    let hi ← hexVal a
    let lo ← hexVal b
    let tail ← hexDecodeList rest
    some ((hi * 16 + lo) :: tail)

/-- `hex::decode` on a string (the form used in `src/src/main.rs`). -/
def hexDecode (s : String) : Option (List Nat) :=
  hexDecodeList s.toList

/-- 128-bit PDB identity (the `uuid::Uuid` type), modelled as a natural. -/
abbrev Uuid := Nat

/-- The wire-protocol message enum of `src/src/main.rs` lines 138-142
(`FindPdb(Uuid)` and `FoundPdb((Uuid, Option<PathBuf>))`). -/
inductive Message where
  | FindPdb (uuid : Uuid)
  | FoundPdb (uuid : Uuid) (path : Option String)
deriving DecidableEq, Repr

-- ---------------------------------------------------------------------------
-- Wire protocol framing (src/src/main.rs lines 685-713)
-- ---------------------------------------------------------------------------

/-- `u16::to_ne_bytes` for the byte order of the producing host (modelled
little-endian; the proof only uses that `u16_from_ne_bytes` inverts it, which
holds for any one consistent order). Input is already reduced mod 2^16. -/
def u16_to_ne_bytes (n : Nat) : List Nat :=
  [n % 256, n / 256 % 256]

/-- `u16::from_ne_bytes`, the inverse composition on the same host. -/
def u16_from_ne_bytes (b0 b1 : Nat) : Nat :=
  b0 + 256 * b1

/-- `send_message` (src/src/main.rs lines 685-697): serialize the message with
the external serializer `ser` (`rmp_serde::to_vec`), write the buffer length
truncated to `u16` (`buf.len() as u16`) in native byte order, then the buffer.
The TCP stream is modelled as the list of bytes written so far. -/
def send_message (ser : Message → List Nat) (stream : List Nat) (message : Message) : List Nat :=
  let buf := ser message
  stream ++ u16_to_ne_bytes (buf.length % 65536) ++ buf

/-- `read_message` (src/src/main.rs lines 699-713): read exactly two bytes,
decode the packet size, read exactly that many bytes, and hand them to the
external deserializer `deser` (`rmp_serde::from_read_ref`). `none` models a
`read_exact`/deserialize failure propagated as an error. -/
def read_message (deser : List Nat → Option Message) : List Nat → Option Message
  | b0 :: b1 :: rest =>
    let packet_size := u16_from_ne_bytes b0 b1
    if packet_size ≤ rest.length then deser (rest.take packet_size) else none
  | _ => none

-- ---------------------------------------------------------------------------
-- Crypto pipeline: multi-key decrypt fallback (src/src/main.rs lines 454-477)
-- ---------------------------------------------------------------------------

/-- The `try_key` closure inside `extract_one` (src/src/main.rs lines 456-467):
hex-decode the candidate key and the nonce, build the cipher, attempt
authenticated decryption. `aesDec` is the external AES-256-GCM decrypt
primitive (`none` = tag verification failure). `Key::from_slice` and
`Nonce::from_slice` panic when the decoded slice is not exactly 32 resp. 12
bytes, which the model preserves. -/
def try_key (aesDec : List Nat → List Nat → List Nat → Option (List Nat))
    (cipher_text : List Nat) (key_hex nonce_str : String) : Outcome (List Nat) :=
  match hexDecode key_hex with
  | none => .err "Failed to hex-decode key"
  | some key_bytes =>
    if key_bytes.length = 32 then
      match hexDecode nonce_str with
      | none => .err "Failed to hex-decode nonce"
      | some nonce_bytes =>
        if nonce_bytes.length = 12 then
          match aesDec key_bytes nonce_bytes cipher_text with
          | some plain_text => .ok plain_text
          | none => .err "Failed to decrypt with key"
        else .panic "Nonce slice length mismatch"
    else .panic "Key slice length mismatch"

/-- The `try_decrypt` closure inside `extract_one` (src/src/main.rs lines
454-475): walk the configured `decode_keys` in order, return the first
successful decryption, and fail once every candidate key was tried. -/
def try_decrypt (aesDec : List Nat → List Nat → List Nat → Option (List Nat))
    (decode_keys : List String) (nonce : String) (cipher_text : List Nat) :
    Outcome (List Nat) :=
  match decode_keys with
  | [] => .err "Failed to decrypt with all keys"
  | hexkey :: rest =>
    match try_key aesDec cipher_text hexkey nonce with
    | .ok plain_text => .ok plain_text
    | .panic m => .panic m
    | .err _ => try_decrypt aesDec rest nonce cipher_text

/-- Specification-side first-success semantics: the plaintext produced by the
first candidate key whose authenticated decryption succeeds, if any. -/
def firstDecrypt (aesDec : List Nat → List Nat → List Nat → Option (List Nat))
    (keys : List String) (nonce_bytes cipher_text : List Nat) : Option (List Nat) :=
  keys.findSome? (fun k => (hexDecode k).bind (fun kb => aesDec kb nonce_bytes cipher_text))

-- ---------------------------------------------------------------------------
-- Embed pipeline (src/src/main.rs lines 60-65 and 194-405)
-- ---------------------------------------------------------------------------

/-- The `EncryptMode` enum of `src/src/main.rs` lines 60-65. The explicit key
is carried as the hex string the operator supplied. -/
inductive EncryptMode where
  | Plaintext
  | EncryptWithRngKey
  | EncryptWithKey (key_hex : String)
deriving DecidableEq, Repr

/-- One element of the `filepaths` vector built by `embed` (src/src/main.rs
line 207): the raw path string recorded in the PDB, the path relative to the
matched root (as components), and the file name. -/
structure FileEntry where
  raw : String
  rel : List String
  name : String
deriving DecidableEq, Repr

/-- `canonical_roots` (src/src/main.rs lines 195-199): canonicalize each root,
silently dropping roots whose canonicalization fails. `canon` is the external
`fs::canonicalize`, returning a path as components. -/
def canonicalRoots (canon : String → Option (List String)) (roots : List String) :
    List (List String) :=
  roots.filterMap canon

/-- The file-discovery loop of `embed` (src/src/main.rs lines 206-250): for
each source path referenced by the PDB's modules, canonicalize it (skipping on
failure), find the first canonical root it starts with and take the path
relative to that root, then record `(raw, relative, file_name)`. The result is
`none` when `subpath.file_name().unwrap()` panics, i.e. when the relative path
has no final component. -/
def collectFilepaths (canon : String → Option (List String))
    (croots : List (List String)) : List String → Option (List FileEntry)
  | [] => some []
  | f :: rest =>
    match canon f with
    | none => collectFilepaths canon croots rest
    | some cf =>
      match (croots.filterMap (fun root =>
          if root.isPrefixOf cf then some (cf.drop root.length) else none)).head? with
      | none => collectFilepaths canon croots rest
      | some sub =>
        match sub.getLast? with
        | none => none
        | some nm => (collectFilepaths canon croots rest).map (fun tail => ⟨f, sub, nm⟩ :: tail)

/-- Cipher construction from the mode (src/src/main.rs lines 259-274). The
value is `(cipher was constructed, a random key must be printed)`. A malformed
hex explicit key propagates an error through the question-mark operator, and
`Key::from_slice` panics when the decoded key is not 32 bytes. -/
def cipherFromMode : EncryptMode → Outcome (Bool × Bool)
  | .Plaintext => .ok (false, false)
  | .EncryptWithRngKey => .ok (true, true)
  | .EncryptWithKey key_hex =>
    match hexDecode key_hex with
    | none => .err "Failed to hex-decode explicit key"
    | some key_bytes =>
      if key_bytes.length = 32 then .ok (true, false)
      else .panic "Key slice length mismatch"

/-- An insert into the `nonces` HashMap (src/src/main.rs line 277 and 306),
modelled as an association list where the most recent insert shadows. -/
def hmInsert (m : List (String × String)) (k v : String) : List (String × String) :=
  (k, v) :: m

/-- `HashMap::get` on the association-list model. -/
def hmGet (m : List (String × String)) (k : String) : Option String :=
  (m.find? (fun kv => kv.1 == k)).map (fun kv => kv.2)

/-- The nonce map after the per-file content loop (src/src/main.rs lines
280-327): when a cipher exists, a fresh nonce (drawn from the external RNG
`nonceGen`, hex-encoded) is inserted per file keyed by its raw path; in
`Plaintext` mode the loop inserts nothing. -/
def buildNonces (hasCipher : Bool) (nonceGen : Nat → String) (files : List FileEntry) :
    List (String × String) :=
  if hasCipher then
    files.enum.foldl (fun m iv => hmInsert m iv.2.raw (nonceGen iv.1)) []
  else []

/-- `PathBuf::to_string_lossy` on a component list (Windows separator). -/
def pathString (components : List String) : String :=
  String.intercalate "\\" components

/-- The `srcsrv` file-table loop (src/src/main.rs lines 364-373): every row is
written as the four asterisk-joined fields, the fourth being
`nonces.get(raw_filepath).unwrap()` — `none` models that unwrap panicking when
a file has no recorded nonce. -/
def writeSrcsrvRows (nonces : List (String × String)) (files : List FileEntry) :
    Option (List String) :=
  files.mapM (fun f =>
    (hmGet nonces f.raw).map (fun n =>
      f.raw ++ "*" ++ pathString f.rel ++ "*" ++ f.name ++ "*" ++ n))

/-- The observable result of a completed `embed`: the file-table rows written
into the `srcsrv` directive stream, and whether a randomly generated key was
printed to the operator (src/src/main.rs lines 396-402). -/
structure EmbedResult where
  rows : List String
  printedRngKey : Bool
deriving DecidableEq, Repr

/-- `embed` (src/src/main.rs lines 194-405), with externals as parameters:
`canon` is `fs::canonicalize`, `readOk` tells whether a source file can be
opened and read, `nonceGen` is the RNG's stream of hex-encoded 96-bit nonces.
The content-stream writes through `pdbstr` and the header lines of the
directive are elided; the `rows` field holds the file-table section. The
phases run in source order: discovery, cipher construction, per-file content
loop (which records nonces only when a cipher exists), then the directive
file-table loop whose `unwrap` panics when a nonce is missing. -/
def embed (canon : String → Option (List String)) (readOk : String → Bool)
    (nonceGen : Nat → String) (encrypt_mode : EncryptMode) (roots : List String)
    (referenced : List String) : Outcome EmbedResult :=
  let croots := canonicalRoots canon roots
  match collectFilepaths canon croots referenced with
  | none => .panic "file_name unwrap on None"
  | some files =>
    match cipherFromMode encrypt_mode with
    | .err m => .err m
    | .panic m => .panic m
    | .ok (hasCipher, printKey) =>
      if files.all (fun f => readOk f.raw) then
        let nonces := buildNonces hasCipher nonceGen files
        match writeSrcsrvRows nonces files with
        | none => .panic "nonce unwrap on None"
        | some rows => .ok ⟨rows, printKey⟩
      else .err "Failed to open source file"

-- ---------------------------------------------------------------------------
-- Extract pipeline (src/src/main.rs lines 101-115, 153-171 and 407-494)
-- ---------------------------------------------------------------------------

/-- The client-side `Config` (src/src/main.rs lines 144-148). -/
structure ClientConfig where
  decode_keys : List String
  encrypt_mode : EncryptMode
deriving DecidableEq, Repr

/-- The `ExtractOneOp` argument record (src/src/main.rs lines 101-115). The
`nonce` field has type `String`, not `Option<String>` — the source carries the
comment `$$$FTS_TODO: Make optional` above it. -/
structure ExtractOneOp where
  pdb_uuid : Uuid
  file : String
  nonce : String
  out : String
deriving DecidableEq, Repr

/-- Modelled from the structopt derive on `ExtractOneOp` (src/src/main.rs
lines 101-115): every field is a plain (non-`Option`, no-default) named
argument, so argument parsing succeeds exactly when all four arguments,
including `--nonce`, are present on the command line. -/
def parseExtractOneOp (pdb_uuid : Option Uuid) (file : Option String)
    (nonce : Option String) (out : Option String) : Option ExtractOneOp := do
  let u ← pdb_uuid
  let f ← file
  let n ← nonce
  let o ← out
  some ⟨u, f, n, o⟩

/-- Handling of the daemon's locate response inside `extract_one`
(src/src/main.rs lines 424-440): a response with a path and the matching
identity is accepted; a response with a path but a different identity hits
`assert_eq!` and panics; every other response (in particular "found, no
path") returns a descriptive `anyhow` error. -/
def handleFindResponse (requested : Uuid) (response : Message) : Outcome (Uuid × String) :=
  match response with
  | .FoundPdb uuid (some path) =>
    if uuid = requested then .ok (uuid, path)
    else .panic "Mismatched Uuids"
  | _ => .err "extract_one queried service for PDB but failed with response"

/-- External collaborators of `extract_one`, one per call site: `connect` is
the result of `TcpStream::connect` plus the request/response exchange (`none`
= connection refused, `some r` = the daemon's reply), `openPdb` is
`File::open` on the resolved path, `getStream` is the PDB library's
`named_stream` lookup, `aesDec` the AES-256-GCM decrypt primitive, and
`writeOk` covers `create_dir_all`/`File::create`/`write_all` on the output
path. -/
structure ExtractEnv where
  connect : Option Message
  openPdb : String → Bool
  getStream : String → Option (List Nat)
  aesDec : List Nat → List Nat → List Nat → Option (List Nat)
  writeOk : Bool

/-- `extract_one` (src/src/main.rs lines 407-494). The pair is the function's
outcome together with the lines it printed to standard output. A connection
failure is caught by the `Err` arm of the match on `TcpStream::connect`, which
prints "Failed to connect" via `println` (standard output) and then falls
through to `Ok(())`. A missing named stream panics through `.expect`. The
decrypted bytes are returned in the `ok` payload (`none` when nothing was
extracted at all, as in the connection-failure arm). -/
def extract_one (env : ExtractEnv) (config : ClientConfig) (op : ExtractOneOp) :
    Outcome (Option (List Nat)) × List String :=
  match env.connect with
  | none => (.ok none, ["Failed to connect"])
  | some response =>
    match handleFindResponse op.pdb_uuid response with
    | .panic m => (.panic m, [])
    | .err m => (.err m, [])
    | .ok found =>
      if env.openPdb found.2 then
        match env.getStream ("/fts_pdbsrc/" ++ op.file) with
        | none => (.panic "Failed to find stream", [])
        | some cipher_text =>
          match try_decrypt env.aesDec config.decode_keys op.nonce cipher_text with
          | .panic m => (.panic m, [])
          | .err m => (.err m, [])
          | .ok plain_text =>
            if env.writeOk then (.ok (some plain_text), [])
            else (.err "Failed to write output file", [])
      else (.err "Failed to open PDB", [])

/-- The exit-code logic of `main` (src/src/main.rs lines 153-171): a
successful `run` exits with code 0; an error prints a formatted message to
standard error and exits with code 1; a panic aborts the process before the
match and is propagated. The value is `(exit code, a message was printed to
standard error)`. -/
def main_exit {α : Type} : Outcome α → Outcome (Nat × Bool)
  | .ok _ => .ok (0, false)
  | .err _ => .ok (1, true)
  | .panic m => .panic m

-- ---------------------------------------------------------------------------
-- Resolution daemon (src/fts_pdbsrc_service/src/main.rs lines 97-488)
-- ---------------------------------------------------------------------------

/-- `simplelog::LevelFilter`, as deserialized into the service config. -/
inductive LevelFilter where
  | Off
  | ErrorLevel
  | Warn
  | Info
  | Debug
  | Trace
deriving DecidableEq, Repr

/-- `ConfigPath` (src/fts_pdbsrc_service/src/main.rs lines 103-107). -/
structure ConfigPath where
  path : String
  follow_symlinks : Bool
deriving DecidableEq, Repr

/-- The service `Config` (src/fts_pdbsrc_service/src/main.rs lines 97-101). -/
structure ServiceConfig where
  paths : List ConfigPath
  log_level : LevelFilter
deriving DecidableEq, Repr

/-- Severity of a `log::...!` call in the service. -/
inductive LogLevel where
  | info
  | warn
  | error
deriving DecidableEq, Repr

/-- One emitted log line (severity and a fixed tag for the format string). -/
structure LogMsg where
  level : LogLevel
  text : String
deriving DecidableEq, Repr

/-- One entry yielded by the recursive `walkdir` walk. -/
structure DirEntry where
  isFile : Bool
  path : String
deriving DecidableEq, Repr

deriving instance DecidableEq for Except

/-- The `path.extension() == Some("pdb")` test used by `process_pdb_path`
(src/fts_pdbsrc_service/src/main.rs lines 423-426). -/
def hasPdbExt (p : String) : Bool :=
  p.endsWith ".pdb"

/-- `process_pdb_path` (src/fts_pdbsrc_service/src/main.rs lines 421-459):
check the extension, then open the file as a PDB, read its `srcsrv` stream,
check the producer/version markers and parse the `FTS_PDBSTR_UUID` variable —
everything past the extension check happens in the external PDB library and
is abstracted into `pdbInfo` (`none` covers every failing or incompatible
case, which the source handles with `ok()?`/`None` returns, never a panic). -/
def process_pdb_path (pdbInfo : String → Option Uuid) (path : String) :
    Option (Uuid × String) :=
  if hasPdbExt path then (pdbInfo path).map (fun u => (u, path)) else none

/-- `process_walkdir_entry` (src/fts_pdbsrc_service/src/main.rs lines
461-467). -/
def process_walkdir_entry (pdbInfo : String → Option Uuid) (e : DirEntry) :
    Option (Uuid × String) :=
  if e.isFile then process_pdb_path pdbInfo e.path else none

/-- `find_pdbs` (src/fts_pdbsrc_service/src/main.rs lines 469-488): walk every
configured root (the external walk is the `walk` parameter, whose entries are
`Result<DirEntry, walkdir::Error>`), and build the identity-to-path map. Each
entry passes through `dir_entry.unwrap()`, so a single `Err` entry in any walk
panics the calling thread — modelled as `none`. On an error-free walk the
result is the processed entries in walk order (the `HashMap` collect). -/
def find_pdbs (pdbInfo : String → Option Uuid)
    (walk : ConfigPath → List (Except String DirEntry))
    (paths : List ConfigPath) : Option (List (Uuid × String)) :=
  let entries := paths.flatMap walk
  if entries.any (fun e => match e with | .error _ => true | .ok _ => false) then
    none
  else
    some (entries.filterMap (fun e =>
      match e with
      | .ok d => process_walkdir_entry pdbInfo d
      | .error _ => none))

/-- `watch_paths` (src/fts_pdbsrc_service/src/main.rs lines 342-408): attach
one filesystem watcher per configured root, keeping the ones whose `watch`
call succeeded (`watchOk`) and logging a warning for each failure. The value
is the retained watcher set (identified by root path) and the emitted log. -/
def watch_paths (watchOk : String → Bool) (paths : List ConfigPath) :
    List String × List LogMsg :=
  (paths.filterMap (fun e => if watchOk e.path then some e.path else none),
   paths.map (fun e =>
     if watchOk e.path then LogMsg.mk .info "Created watch"
     else LogMsg.mk .warn "Failed to watch path"))

/-- The daemon state owned by `run_service`: the shared UUID-to-path index
(`pdbs`, behind `Arc<Mutex<...>>`), the per-root watcher set
(`path_watchers`), and the applied log level. -/
structure DaemonState where
  pdbs : List (Uuid × String)
  pathWatchers : List String
  logLevel : LevelFilter
deriving DecidableEq, Repr

/-- A `hotwatch::Event` delivered to the config-file watcher: only `Write`
carries behaviour in the callback; every other variant is ignored. -/
inductive WatchEvent where
  | Write (path : String)
  | Other
deriving DecidableEq, Repr

/-- The log lines emitted by `read_config` (src/fts_pdbsrc_service/src/main.rs
lines 410-419) for a given parse result: two informational lines before the
parse and a third on success. A parse failure adds no line of its own — the
error is returned, not logged. -/
def read_config_logs (parse : Except String ServiceConfig) : List LogMsg :=
  match parse with
  | .error _ => [⟨.info, "Loading config file"⟩, ⟨.info, "Parsing config"⟩]
  | .ok _ => [⟨.info, "Loading config file"⟩, ⟨.info, "Parsing config"⟩,
      ⟨.info, "Successfully loaded config"⟩]

/-- The config-file watcher callback (src/fts_pdbsrc_service/src/main.rs lines
190-214). On a `Write` event it logs an informational line, re-reads the
config (`parse` is `read_config`'s result for the changed file); on a parse
failure the `?` operator leaves the closure early and the closure's
`anyhow::Result` is discarded with a `let _ =` binding — nothing is logged and
no state is touched. On success it applies the new log level, clears and
rebuilds the per-root watchers, and replaces the index with a fresh
`find_pdbs` scan, which panics if any walk entry is an error. -/
def configCallback (pdbInfo : String → Option Uuid)
    (walk : ConfigPath → List (Except String DirEntry)) (watchOk : String → Bool)
    (event : WatchEvent) (parse : Except String ServiceConfig) (s : DaemonState) :
    Outcome DaemonState × List LogMsg :=
  match event with
  | .Other => (.ok s, [])
  | .Write _ =>
    let logs := LogMsg.mk .info "Config file changed. Re-parsing log." :: read_config_logs parse
    match parse with
    | .error _ => (.ok s, logs)
    | .ok newConfig =>
      let ws := watch_paths watchOk newConfig.paths
      match find_pdbs pdbInfo walk newConfig.paths with
      | none => (.panic "walkdir DirEntry unwrap on Err", logs ++ ws.2)
      | some idx => (.ok ⟨idx, ws.1, newConfig.log_level⟩, logs ++ ws.2)

/-- The startup portion of `run_service` (src/fts_pdbsrc_service/src/main.rs
lines 169-184): read the config (failure is fatal to startup, propagated as an
error), build the initial index with `find_pdbs` (an error walk entry panics),
then attach the per-root watchers. -/
def run_service_startup (pdbInfo : String → Option Uuid)
    (walk : ConfigPath → List (Except String DirEntry)) (watchOk : String → Bool)
    (parse : Except String ServiceConfig) : Outcome DaemonState :=
  match parse with
  | .error e => .err e
  | .ok config =>
    match find_pdbs pdbInfo walk config.paths with
    | none => .panic "walkdir DirEntry unwrap on Err"
    | some idx => .ok ⟨idx, (watch_paths watchOk config.paths).1, config.log_level⟩

-- ---------------------------------------------------------------------------
-- Parallel job runner (src/fts_pdbsrc_service/src/job_system.rs)
-- ---------------------------------------------------------------------------

/-- The recursive test job (src/fts_pdbsrc_service/src/job_system.rs lines
142-149): a unit `v > 0` emits the result `v` and pushes `v - 1` onto the
worker's queue; a unit `v ≤ 0` emits nothing and terminates its chain. The
value is `(the emitted result, the spawned follow-up units)`. -/
def testJob (value : Int) : Option Int × List Int :=
  if value > 0 then (some value, [value - 1]) else (none, [])

/-- `instant_sum` (src/fts_pdbsrc_service/src/job_system.rs lines 151-153):
the closed triangular-number form. -/
def instant_sum (value : Int) : Int :=
  value * (value + 1) / 2

/-- The total the chain seeded by one pending unit will still contribute. -/
def pendingWeight (v : Int) : Int :=
  if v > 0 then instant_sum v else 0

/-- Abstract state of one `run_recursive_job` execution: `pending` is the
multiset union of the injector and every worker's deque (held as a list whose
order the step relation ignores), `results` the union of all per-worker result
vectors. -/
structure JobState where
  pending : List Int
  results : List Int
deriving DecidableEq, Repr

/-- Effect of some worker executing the pending unit `v`: the unit leaves the
queues, its spawned units are enqueued, its emitted result is collected. -/
def stepState (s : JobState) (v : Int) : JobState :=
  ⟨s.pending.erase v ++ (testJob v).2, s.results ++ (testJob v).1.toList⟩

/-- One scheduling step of `run_recursive_job`
(src/fts_pdbsrc_service/src/job_system.rs lines 5-83): some worker obtains an
arbitrary pending unit through `find_task` (local LIFO pop, injector batch
steal, or steal from a peer — all of which only select WHICH pending unit runs
next) and executes the job on it. Any interleaving produced by any worker
count, 1 and 6 included, is a sequence of such steps. -/
inductive JobStep : JobState → JobState → Prop
  | work (v : Int) (s : JobState) (h : v ∈ s.pending) : JobStep s (stepState s v)

/-- Reachability under the job-runner scheduling steps. -/
def JobReaches : JobState → JobState → Prop :=
  Relation.ReflTransGen JobStep

/-- The sum of all collected results (`results.iter().sum()` in the tests). -/
def resultTotal (s : JobState) : Int :=
  s.results.sum

/-- Conserved quantity: results collected so far plus the contribution still
pending. -/
def jobMeasure (s : JobState) : Int :=
  s.results.sum + (s.pending.map pendingWeight).sum

/-- The initial state: the injector holds the seed data, no results yet
(src/fts_pdbsrc_service/src/job_system.rs lines 17-20). -/
def seedState (initial : List Int) : JobState :=
  ⟨initial, []⟩

-- ---------------------------------------------------------------------------
-- Concrete instantiation data used to evaluate the model on closed inputs
-- ---------------------------------------------------------------------------

/-- A tiny concrete filesystem for `fs::canonicalize`: one root directory, one
source file under it, one source file outside it. -/
def demoCanon : String → Option (List String) := fun s =>
  if s = "C:\\proj\\src\\a.c" then some ["C:", "proj", "src", "a.c"]
  else if s = "C:\\proj\\src" then some ["C:", "proj", "src"]
  else if s = "D:\\other\\b.c" then some ["D:", "other", "b.c"]
  else none

/-- A fixed RNG stream of hex-encoded 96-bit nonces. -/
def demoNonceGen : Nat → String := fun _ => "000102030405060708090a0b"

/-- A well-formed 256-bit explicit key, hex encoded. -/
def demoKeyHex : String :=
  "aaaaaaaaaaaaaaaaaaaaaaaaaaaaaaaaaaaaaaaaaaaaaaaaaaaaaaaaaaaaaaaa"

/-- First candidate decode key (hex of 32 bytes 0x11). -/
def hexKey1 : String :=
  "1111111111111111111111111111111111111111111111111111111111111111"

/-- Second candidate decode key (hex of 32 bytes 0x22). -/
def hexKey2 : String :=
  "2222222222222222222222222222222222222222222222222222222222222222"

/-- Third candidate decode key (hex of 32 bytes 0x33). -/
def hexKey3 : String :=
  "3333333333333333333333333333333333333333333333333333333333333333"

/-- The decoded bytes of `hexKey2`. -/
def keyBytes2 : List Nat :=
  List.replicate 32 34

/-- A hex-encoded 96-bit nonce. -/
def demoNonceHex : String :=
  "0a0a0a0a0a0a0a0a0a0a0a0a"

/-- The decoded bytes of `demoNonceHex`. -/
def nonceBytes : List Nat :=
  List.replicate 12 10

/-- A short plaintext. -/
def demoPlain : List Nat :=
  [72, 105]

/-- A toy AEAD encrypt standing in for AES-256-GCM in closed evaluations: the
ciphertext records key, nonce and plaintext. -/
def toyEnc : List Nat → List Nat → List Nat → List Nat := fun kb nb pt =>
  kb ++ nb ++ pt

/-- The matching toy AEAD decrypt: authentication succeeds exactly when key
and nonce match the ones recorded in the ciphertext. -/
def toyDec : List Nat → List Nat → List Nat → Option (List Nat) := fun kb nb ct =>
  if ct.take 32 = kb ∧ (ct.drop 32).take 12 = nb ∧ 44 ≤ ct.length then
    some ((ct.drop 32).drop 12)
  else none

/-- An extraction environment whose daemon connection fails. -/
def envConnectFail : ExtractEnv :=
  ⟨none, fun _ => true, fun _ => some [104, 105], fun _ _ _ => none, true⟩

/-- An extraction environment that resolves PDB 7 and serves a stream whose
bytes are plain source text (not a valid AES-GCM ciphertext, so the decrypt
primitive rejects it under every key). -/
def envPlainStream : ExtractEnv :=
  ⟨some (.FoundPdb 7 (some "C:\\symbols\\x.pdb")), fun _ => true,
   fun _ => some [104, 105], fun _ _ _ => none, true⟩

/-- A client config with one well-formed decode key. -/
def cfgOneKey : ClientConfig :=
  ⟨[hexKey1], .Plaintext⟩

/-- A fully supplied `extract_one` invocation. -/
def opWithNonce : ExtractOneOp :=
  ⟨7, "a.c", demoNonceHex, "C:\\out\\a.c"⟩

/-- A concrete binary serializer standing in for `rmp_serde::to_vec` in closed
evaluations: a tag byte followed by the 16 identity bytes, little-endian. -/
def demoSer : Message → List Nat
  | .FindPdb u => 0 :: (List.range 16).map (fun i => u / 256 ^ i % 256)
  | .FoundPdb u none => 1 :: ((List.range 16).map (fun i => u / 256 ^ i % 256)) ++ [0]
  | .FoundPdb u (some p) =>
    1 :: ((List.range 16).map (fun i => u / 256 ^ i % 256)) ++ [1] ++ p.toList.map Char.toNat

/-- The matching deserializer for locate messages. -/
def demoDeser (bytes : List Nat) : Option Message :=
  match bytes with
  | 0 :: rest =>
    if rest.length = 16 then
      some (.FindPdb (rest.enum.foldl (fun acc ib => acc + ib.2 * 256 ^ ib.1) 0))
    else none
  | _ => none

/-- A daemon state with a non-empty index and watcher set, to exhibit
retention across a failed config re-parse. -/
def demoDaemonState : DaemonState :=
  ⟨[(1, "C:\\symbols\\a.pdb")], ["C:\\symbols"], .Info⟩

/-- A service config with a single root. -/
def demoServiceConfig : ServiceConfig :=
  ⟨[⟨"C:\\symbols", false⟩], .Info⟩

/-- A filesystem walk that yields one error entry (an unreadable directory)
among ordinary file entries. -/
def demoBadWalk : ConfigPath → List (Except String DirEntry) := fun _ =>
  [.ok ⟨true, "C:\\symbols\\a.pdb"⟩, .error "Access is denied"]

/-- The decoded bytes of `hexKey1`. -/
def keyBytes1 : List Nat :=
  List.replicate 32 17

/-- The decoded bytes of `hexKey3`. -/
def keyBytes3 : List Nat :=
  List.replicate 32 51

-- ---------------------------------------------------------------------------
-- Theorems
-- ---------------------------------------------------------------------------

/-- A positive pending unit contributes its own value plus the weight of the
unit it spawns. -/
theorem pendingWeight_pos (v : Int) (h : 0 < v) :
    pendingWeight v = v + pendingWeight (v - 1) := by
  unfold pendingWeight instant_sum
  rcases eq_or_lt_of_le (by omega : (1 : Int) ≤ v) with h1 | h1
  · rw [← h1]
    norm_num
  · have hv : v > 0 := h
    have hv1 : v - 1 > 0 := by omega
    rw [if_pos hv, if_pos hv1]
    have e : v * (v + 1) = (v - 1) * (v - 1 + 1) + v * 2 := by ring
    rw [e, Int.add_mul_ediv_right _ _ (by norm_num : (2 : Int) ≠ 0)]
    ring

/-- Each scheduling step conserves the job measure. -/
theorem jobMeasure_step {s t : JobState} (h : JobStep s t) : jobMeasure t = jobMeasure s := by
  cases h with
  | work v s hv =>
    have hperm := List.perm_cons_erase hv
    have hsum : (s.pending.map pendingWeight).sum
        = pendingWeight v + ((s.pending.erase v).map pendingWeight).sum := by
      have h2 := (hperm.map pendingWeight).sum_eq
      simpa using h2
    by_cases hv0 : v > 0
    · simp only [jobMeasure, stepState, testJob, if_pos hv0, Option.toList,
        List.map_append, List.sum_append, List.map_cons, List.map_nil, List.sum_cons,
        List.sum_nil, hsum, pendingWeight_pos v hv0]
      ring
    · have hw : pendingWeight v = 0 := by simp [pendingWeight, hv0]
      simp only [jobMeasure, stepState, testJob, if_neg hv0, Option.toList,
        List.map_append, List.sum_append, List.map_nil, List.sum_nil, List.append_nil,
        hsum, hw]
      ring

/-- The job measure is conserved along any execution. -/
theorem jobMeasure_reaches {s t : JobState} (h : JobReaches s t) :
    jobMeasure t = jobMeasure s := by
  have h2 : Relation.ReflTransGen JobStep s t := h
  clear h
  induction h2 with
  | refl => rfl
  | tail _ hst ih => rw [jobMeasure_step hst, ih]

/-- Claim C9: for the recursive job in which each unit `v > 0` emits the
result `v` and enqueues `v - 1`, any two terminating executions of the job
runner on the seed `[n]` — in particular the interleavings produced by worker
counts 1 and 6 — collect result sets with equal totals, and that total is the
triangular number `n * (n + 1) / 2`. -/
theorem c9_job_runner_totals (n : ℕ) (s1 s2 : JobState)
    (h1 : JobReaches (seedState [(n : Int)]) s1) (ht1 : s1.pending = [])
    (h2 : JobReaches (seedState [(n : Int)]) s2) (ht2 : s2.pending = []) :
    resultTotal s1 = resultTotal s2 ∧
    resultTotal s1 = ((n * (n + 1) / 2 : ℕ) : Int) := by
  have key : ∀ s : JobState, JobReaches (seedState [(n : Int)]) s → s.pending = [] →
      resultTotal s = ((n * (n + 1) / 2 : ℕ) : Int) := by
    intro s hs hterm
    have hm := jobMeasure_reaches hs
    have hseed : jobMeasure (seedState [(n : Int)]) = pendingWeight n := by
      simp [jobMeasure, seedState]
    have hterm2 : jobMeasure s = resultTotal s := by
      simp [jobMeasure, resultTotal, hterm]
    rcases Nat.eq_zero_or_pos n with h0 | h0
    · subst h0
      rw [← hterm2, hm, hseed]
      simp [pendingWeight]
    · have hcast : pendingWeight n = ((n * (n + 1) / 2 : ℕ) : Int) := by
        rw [pendingWeight, if_pos (by exact_mod_cast h0), instant_sum, Int.ofNat_ediv]
        push_cast
        ring_nf
      rw [← hterm2, hm, hseed, hcast]
  exact ⟨by rw [key s1 h1 ht1, key s2 h2 ht2], key s1 h1 ht1⟩

/-- Witness for C9: an explicit terminating execution from seed `[3]` whose
result total is the triangular number 6. -/
theorem c9_job_runner_totals_witness :
    JobReaches (seedState [(3 : Int)]) ⟨[], [3, 2, 1]⟩ ∧
    (JobState.mk [] [3, 2, 1]).pending = [] ∧
    resultTotal ⟨[], [3, 2, 1]⟩ = ((3 * (3 + 1) / 2 : ℕ) : Int) := by
  have e0 : stepState (seedState [(3 : Int)]) 3 = ⟨[2], [3]⟩ := by decide
  have e1 : stepState ⟨[2], [3]⟩ 2 = ⟨[1], [3, 2]⟩ := by decide
  have e2 : stepState ⟨[1], [3, 2]⟩ 1 = ⟨[0], [3, 2, 1]⟩ := by decide
  have e3 : stepState ⟨[0], [3, 2, 1]⟩ 0 = ⟨[], [3, 2, 1]⟩ := by decide
  have s0 : JobStep (seedState [(3 : Int)]) ⟨[2], [3]⟩ := by
    have h := JobStep.work 3 (seedState [(3 : Int)]) (by decide)
    rw [e0] at h
    exact h
  have s1 : JobStep ⟨[2], [3]⟩ ⟨[1], [3, 2]⟩ := by
    have h := JobStep.work 2 ⟨[2], [3]⟩ (by decide)
    rw [e1] at h
    exact h
  have s2 : JobStep ⟨[1], [3, 2]⟩ ⟨[0], [3, 2, 1]⟩ := by
    have h := JobStep.work 1 ⟨[1], [3, 2]⟩ (by decide)
    rw [e2] at h
    exact h
  have s3 : JobStep ⟨[0], [3, 2, 1]⟩ ⟨[], [3, 2, 1]⟩ := by
    have h := JobStep.work 0 ⟨[0], [3, 2, 1]⟩ (by decide)
    rw [e3] at h
    exact h
  have hr : JobReaches (seedState [(3 : Int)]) ⟨[], [3, 2, 1]⟩ :=
    Relation.ReflTransGen.head s0 (Relation.ReflTransGen.head s1
      (Relation.ReflTransGen.head s2 (Relation.ReflTransGen.head s3
        Relation.ReflTransGen.refl)))
  exact ⟨hr, rfl, (c9_job_runner_totals 3 ⟨[], [3, 2, 1]⟩ ⟨[], [3, 2, 1]⟩ hr rfl hr rfl).2⟩

/-- Claim C6: the multi-key decrypt fallback tries each candidate key in list
order and returns the plaintext of the first key whose authenticated
decryption succeeds, failing once every key was tried; in particular, for
candidate keys `[K1, K2, K3]` and a ciphertext produced under K2 it returns
the original plaintext, and for `[K1, K3]` it fails. The AEAD primitive is
abstract; the hypotheses state its contract (round trip under the right key,
authentication failure under a wrong key) and that the candidate keys and the
nonce are well-formed hex encodings of 32 resp. 12 bytes, as required by
`Key::from_slice` / `Nonce::from_slice`. -/
theorem c6_multi_key_fallback
    (aesEnc : List Nat → List Nat → List Nat → List Nat)
    (aesDec : List Nat → List Nat → List Nat → Option (List Nat))
    (nonce K1 K2 K3 : String) (nb kb1 kb2 kb3 p : List Nat)
    (hn : hexDecode nonce = some nb) (hnl : nb.length = 12)
    (h1 : hexDecode K1 = some kb1) (hl1 : kb1.length = 32)
    (h2 : hexDecode K2 = some kb2) (hl2 : kb2.length = 32)
    (h3 : hexDecode K3 = some kb3) (hl3 : kb3.length = 32)
    (hdec2 : aesDec kb2 nb (aesEnc kb2 nb p) = some p)
    (hdec1 : aesDec kb1 nb (aesEnc kb2 nb p) = none)
    (hdec3 : aesDec kb3 nb (aesEnc kb2 nb p) = none) :
    (∀ (keys : List String) (ct : List Nat),
        (∀ k ∈ keys, ∃ kb, hexDecode k = some kb ∧ kb.length = 32) →
        try_decrypt aesDec keys nonce ct =
          match firstDecrypt aesDec keys nb ct with
          | some pt => Outcome.ok pt
          | none => Outcome.err "Failed to decrypt with all keys") ∧
    try_decrypt aesDec [K1, K2, K3] nonce (aesEnc kb2 nb p) = .ok p ∧
    try_decrypt aesDec [K1, K3] nonce (aesEnc kb2 nb p)
      = .err "Failed to decrypt with all keys" := by
  have general : ∀ (keys : List String) (ct : List Nat),
      (∀ k ∈ keys, ∃ kb, hexDecode k = some kb ∧ kb.length = 32) →
      try_decrypt aesDec keys nonce ct =
        match firstDecrypt aesDec keys nb ct with
        | some pt => Outcome.ok pt
        | none => Outcome.err "Failed to decrypt with all keys" := by
    intro keys
    induction keys with
    | nil =>
      intro ct _
      rfl
    | cons k rest ih =>
      intro ct hk
      obtain ⟨kb, hkb, hkbl⟩ := hk k (by simp)
      have hrest : ∀ k2 ∈ rest, ∃ kb2, hexDecode k2 = some kb2 ∧ kb2.length = 32 := by
        intro k2 hk2
        exact hk k2 (by simp [hk2])
      have hkeystep : try_key aesDec ct k nonce =
          match aesDec kb nb ct with
          | some pt => Outcome.ok pt
          | none => Outcome.err "Failed to decrypt with key" := by
        simp [try_key, hkb, hkbl, hn, hnl]
      have hfirst : firstDecrypt aesDec (k :: rest) nb ct =
          match aesDec kb nb ct with
          | some pt => some pt
          | none => firstDecrypt aesDec rest nb ct := by
        simp [firstDecrypt, List.findSome?_cons, hkb]
        cases aesDec kb nb ct <;> simp
      rw [try_decrypt, hkeystep, hfirst]
      cases aesDec kb nb ct with
      | none => simpa using ih ct hrest
      | some pt => rfl
  refine ⟨general, ?_, ?_⟩
  · have hwf : ∀ k ∈ [K1, K2, K3], ∃ kb, hexDecode k = some kb ∧ kb.length = 32 := by
      intro k hk
      simp only [List.mem_cons, List.not_mem_nil, or_false] at hk
      rcases hk with rfl | rfl | rfl
      · exact ⟨kb1, h1, hl1⟩
      · exact ⟨kb2, h2, hl2⟩
      · exact ⟨kb3, h3, hl3⟩
    have hfd : firstDecrypt aesDec [K1, K2, K3] nb (aesEnc kb2 nb p) = some p := by
      simp [firstDecrypt, List.findSome?_cons, h1, h2, hdec1, hdec2]
    rw [general [K1, K2, K3] (aesEnc kb2 nb p) hwf, hfd]
  · have hwf : ∀ k ∈ [K1, K3], ∃ kb, hexDecode k = some kb ∧ kb.length = 32 := by
      intro k hk
      simp only [List.mem_cons, List.not_mem_nil, or_false] at hk
      rcases hk with rfl | rfl
      · exact ⟨kb1, h1, hl1⟩
      · exact ⟨kb3, h3, hl3⟩
    have hfd : firstDecrypt aesDec [K1, K3] nb (aesEnc kb2 nb p) = none := by
      simp [firstDecrypt, List.findSome?_cons, h1, h3, hdec1, hdec3]
    rw [general [K1, K3] (aesEnc kb2 nb p) hwf, hfd]

/-- Witness for C6: the fallback evaluated on concrete well-formed keys with a
toy AEAD instantiation — the second candidate key recovers the plaintext, and
dropping it makes the fallback fail. -/
theorem c6_multi_key_fallback_witness :
    hexDecode hexKey2 = some keyBytes2 ∧
    try_decrypt toyDec [hexKey1, hexKey2, hexKey3] demoNonceHex
      (toyEnc keyBytes2 nonceBytes demoPlain) = .ok demoPlain ∧
    try_decrypt toyDec [hexKey1, hexKey3] demoNonceHex
      (toyEnc keyBytes2 nonceBytes demoPlain) = .err "Failed to decrypt with all keys" := by
  have main := c6_multi_key_fallback toyEnc toyDec demoNonceHex hexKey1 hexKey2 hexKey3
    nonceBytes keyBytes1 keyBytes2 keyBytes3 demoPlain
    (by decide) (by decide) (by decide) (by decide) (by decide) (by decide)
    (by decide) (by decide) (by decide) (by decide) (by decide)
  exact ⟨by decide, main.2.1, main.2.2⟩

/-- Claim C8: framing a serialized locate message with its 2-byte length
prefix and reading the frame back (reading exactly the prefixed number of
bytes) recovers the identical locate message, for any serializer/deserializer
pair that round-trips on it and any frame that fits the `u16` length. -/
theorem c8_framing_round_trip (ser : Message → List Nat)
    (deser : List Nat → Option Message) (u : Uuid)
    (hrt : deser (ser (.FindPdb u)) = some (.FindPdb u))
    (hlen : (ser (.FindPdb u)).length < 65536) :
    read_message deser (send_message ser [] (.FindPdb u)) = some (.FindPdb u) := by
  have key : ∀ buf : List Nat, buf.length < 65536 → deser buf = some (.FindPdb u) →
      read_message deser (buf.length % 65536 % 256
        :: buf.length % 65536 / 256 % 256 :: buf) = some (.FindPdb u) := by
    intro buf hl hd
    have hmod : buf.length % 65536 = buf.length := Nat.mod_eq_of_lt hl
    rw [read_message, hmod]
    have hsize : u16_from_ne_bytes (buf.length % 256) (buf.length / 256 % 256)
        = buf.length := by
      rw [u16_from_ne_bytes]
      omega
    rw [hsize, if_pos (le_refl buf.length), List.take_length, hd]
  have hsend : send_message ser [] (.FindPdb u)
      = (ser (.FindPdb u)).length % 65536 % 256
        :: (ser (.FindPdb u)).length % 65536 / 256 % 256 :: ser (.FindPdb u) := by
    simp [send_message, u16_to_ne_bytes]
  rw [hsend]
  exact key (ser (.FindPdb u)) hlen hrt

/-- Witness for C8: the round trip evaluated with a concrete serializer on the
concrete identity 7777. -/
theorem c8_framing_round_trip_witness :
    demoDeser (demoSer (.FindPdb 7777)) = some (.FindPdb 7777) ∧
    (demoSer (.FindPdb 7777)).length < 65536 ∧
    read_message demoDeser (send_message demoSer [] (.FindPdb 7777))
      = some (.FindPdb 7777) :=
  ⟨by decide, by decide, c8_framing_round_trip demoSer demoDeser 7777 (by decide) (by decide)⟩

/-- Claim C1 (code bug): the spec requires Plaintext embeds to write
three-field directive rows and complete, but the file-table loop writes a
fourth field unconditionally via `nonces.get(raw_filepath).unwrap()`
(src/src/main.rs line 371), and in Plaintext mode the nonce map is empty, so
an embed with at least one qualifying file panics. Under an encrypting mode
the same loop completes and every row carries the fourth hex-nonce field. -/
theorem c1_plaintext_embed_panics :
    embed demoCanon (fun _ => true) demoNonceGen .Plaintext
        ["C:\\proj\\src"] ["C:\\proj\\src\\a.c"]
      = .panic "nonce unwrap on None" ∧
    embed demoCanon (fun _ => true) demoNonceGen (.EncryptWithKey demoKeyHex)
        ["C:\\proj\\src"] ["C:\\proj\\src\\a.c"]
      = .ok ⟨["C:\\proj\\src\\a.c*a.c*a.c*000102030405060708090a0b"], false⟩ ∧
    ("C:\\proj\\src\\a.c*a.c*a.c*000102030405060708090a0b".toList.count '*' = 3) := by
  exact ⟨by decide, by decide, by decide⟩

/-- Claim C2 (code bug): the spec and the source's own
`$$$FTS_TODO: Make optional` comment intend the `--nonce` argument to be
optional with a plaintext passthrough when absent, but the `ExtractOneOp`
field is a plain `String`, so an invocation without `--nonce` is rejected at
argument parsing, and `extract_one` unconditionally runs the multi-key
decrypt fallback — a stream embedded as plaintext is never passed through and
extraction of it fails under every configured key. -/
theorem c2_nonce_required_bug :
    parseExtractOneOp (some 7) (some "a.c") none (some "C:\\out\\a.c") = none ∧
    extract_one envPlainStream cfgOneKey opWithNonce
      = (.err "Failed to decrypt with all keys", []) := by
  exact ⟨rfl, by decide⟩

/-- Counterexample to C3: an embed invocation in which zero referenced files
lie under any canonicalized root does not abort — it completes successfully
(writing a directive stream with an empty file table), contradicting the
claimed error. -/
theorem c3_zero_files_counterexample :
    embed demoCanon (fun _ => true) demoNonceGen .Plaintext
        ["C:\\proj\\src"] ["D:\\other\\b.c"]
      = .ok ⟨[], false⟩ ∧
    (embed demoCanon (fun _ => true) demoNonceGen .Plaintext
        ["C:\\proj\\src"] ["D:\\other\\b.c"]).isErr = false := by
  exact ⟨by decide, by decide⟩

/-- Claim C3 as amended: when zero referenced files qualify under the
canonicalized roots (and cipher construction succeeds), `embed` does not
abort; it completes successfully with an empty file table. -/
theorem c3_zero_files_amended (canon : String → Option (List String))
    (readOk : String → Bool) (nonceGen : Nat → String) (encrypt_mode : EncryptMode)
    (roots referenced : List String) (b pk : Bool)
    (hzero : collectFilepaths canon (canonicalRoots canon roots) referenced = some [])
    (hmode : cipherFromMode encrypt_mode = .ok (b, pk)) :
    embed canon readOk nonceGen encrypt_mode roots referenced = .ok ⟨[], pk⟩ := by
  rw [embed, hzero, hmode]
  rfl

/-- Witness for the amended C3 at a concrete zero-qualifying input. -/
theorem c3_zero_files_amended_witness :
    collectFilepaths demoCanon (canonicalRoots demoCanon ["C:\\proj\\src"])
      ["D:\\other\\b.c"] = some [] ∧
    embed demoCanon (fun _ => true) demoNonceGen .EncryptWithRngKey
      ["C:\\proj\\src"] ["D:\\other\\b.c"] = .ok ⟨[], true⟩ :=
  ⟨by decide, c3_zero_files_amended demoCanon (fun _ => true) demoNonceGen
    .EncryptWithRngKey ["C:\\proj\\src"] ["D:\\other\\b.c"] true true
    (by decide) (by decide)⟩

/-- Counterexample to C4: a locate response whose identity differs from the
request but which carries a path hits `assert_eq!` and panics, aborting the
whole process instead of returning a recoverable error. -/
theorem c4_mismatch_counterexample :
    handleFindResponse 1 (.FoundPdb 2 (some "C:\\found.pdb"))
      = .panic "Mismatched Uuids" := by
  decide

/-- Claim C4 as amended: a locate response with no path (and any response of
the wrong shape) makes `extract_one` return a descriptive recoverable error,
but an identity mismatch on a response that does carry a path is handled by
an assertion that aborts the whole process. -/
theorem c4_response_handling_amended (u u2 u3 : Uuid) (path : String) :
    handleFindResponse u (.FoundPdb u2 (some path))
      = (if u2 = u then .ok (u2, path) else .panic "Mismatched Uuids") ∧
    handleFindResponse u (.FoundPdb u2 none)
      = .err "extract_one queried service for PDB but failed with response" ∧
    handleFindResponse u (.FindPdb u3)
      = .err "extract_one queried service for PDB but failed with response" := by
  exact ⟨rfl, rfl, rfl⟩

/-- Counterexample to C5: an `extract_one` invocation whose daemon connection
fails prints its message to standard output and returns success, so the
process exits with code 0 and writes nothing to standard error, although the
operation did not complete. -/
theorem c5_connect_failure_counterexample :
    extract_one envConnectFail cfgOneKey opWithNonce = (.ok none, ["Failed to connect"]) ∧
    main_exit (extract_one envConnectFail cfgOneKey opWithNonce).1 = .ok (0, false) := by
  exact ⟨rfl, rfl⟩

/-- Claim C5 as amended: `main` exits 0 when `run` returns success and 1 with
a message on standard error when it returns an error — but a failed daemon
connection inside `extract_one` is swallowed: the message goes to standard
output and the function returns success, so that invocation exits 0. -/
theorem c5_exit_code_amended :
    (∀ (α : Type) (a : α), main_exit (Outcome.ok a) = .ok (0, false)) ∧
    (∀ (α : Type) (m : String), main_exit (Outcome.err m : Outcome α) = .ok (1, true)) ∧
    (∀ (o : String → Bool) (g : String → Option (List Nat))
        (d : List Nat → List Nat → List Nat → Option (List Nat)) (w : Bool)
        (config : ClientConfig) (op : ExtractOneOp),
        extract_one ⟨none, o, g, d, w⟩ config op = (.ok none, ["Failed to connect"])) := by
  refine ⟨fun α a => rfl, fun α m => rfl, fun o g d w config op => rfl⟩

/-- Counterexample to C7: on a config-file write whose re-parse fails, the
daemon state (index, watcher set, log level) is fully retained and nothing
crashes, but the parse error itself is never logged — the callback's result
is discarded and only informational lines are emitted, contradicting "the
error is only logged". -/
theorem c7_parse_failure_counterexample :
    configCallback (fun _ => none) (fun _ => []) (fun _ => true)
        (.Write "fts_pdbsrc_service_config.json") (.error "invalid json") demoDaemonState
      = (.ok demoDaemonState,
         [⟨.info, "Config file changed. Re-parsing log."⟩,
          ⟨.info, "Loading config file"⟩, ⟨.info, "Parsing config"⟩]) ∧
    ((configCallback (fun _ => none) (fun _ => []) (fun _ => true)
        (.Write "fts_pdbsrc_service_config.json") (.error "invalid json")
        demoDaemonState).2.all (fun l => l.level == .info)) = true := by
  exact ⟨rfl, rfl⟩

/-- Claim C7 as amended: for every configuration-file write event whose
re-parse fails, the daemon does not crash, the previous index keeps being
served and the previously built watcher set is retained (old watchers are
only torn down after a successful parse) — however the parse error is
silently discarded, not logged: only informational lines are emitted. -/
theorem c7_parse_failure_amended (pdbInfo : String → Option Uuid)
    (walk : ConfigPath → List (Except String DirEntry)) (watchOk : String → Bool)
    (p e : String) (s : DaemonState) :
    configCallback pdbInfo walk watchOk (.Write p) (.error e) s
      = (.ok s, [⟨.info, "Config file changed. Re-parsing log."⟩,
          ⟨.info, "Loading config file"⟩, ⟨.info, "Parsing config"⟩]) := by
  rfl

/-- Claim C10: the daemon's full tree scan is not total over walk outcomes —
a single error entry in the recursive walk of any configured root makes
`find_pdbs` panic through `dir_entry.unwrap()` instead of skipping it, both at
startup and inside the config-watcher callback after a successful re-parse. -/
theorem c10_walk_error_panics (pdbInfo : String → Option Uuid)
    (walk : ConfigPath → List (Except String DirEntry)) (watchOk : String → Bool)
    (config : ServiceConfig) (p e : String) (s : DaemonState)
    (h : Except.error e ∈ config.paths.flatMap walk) :
    find_pdbs pdbInfo walk config.paths = none ∧
    run_service_startup pdbInfo walk watchOk (.ok config)
      = .panic "walkdir DirEntry unwrap on Err" ∧
    (configCallback pdbInfo walk watchOk (.Write p) (.ok config) s).1
      = .panic "walkdir DirEntry unwrap on Err" := by
  have hany : (config.paths.flatMap walk).any
      (fun x => match x with | .error _ => true | .ok _ => false) = true := by
    rw [List.any_eq_true]
    exact ⟨.error e, h, rfl⟩
  have hf : find_pdbs pdbInfo walk config.paths = none := by
    rw [find_pdbs, hany]
    rfl
  refine ⟨hf, ?_, ?_⟩
  · rw [run_service_startup, hf]
  · rw [configCallback, hf]

/-- Witness for C10: a concrete walk with an unreadable directory entry makes
the scan panic. -/
theorem c10_walk_error_panics_witness :
    Except.error "Access is denied" ∈ demoServiceConfig.paths.flatMap demoBadWalk ∧
    find_pdbs (fun _ => none) demoBadWalk demoServiceConfig.paths = none :=
  ⟨by decide, (c10_walk_error_panics (fun _ => none) demoBadWalk (fun _ => true)
    demoServiceConfig "c" "Access is denied" demoDaemonState (by decide)).1⟩
